import Mathlib

/-
Verification development for the jrpc2 JSON-RPC 2.0 peer library.

The Go sources are shallowly embedded as Lean definitions:

* Raw JSON fragments (Go json.RawMessage) are modelled by their parsed
  JSON value (`JSON`), together with `JSON.ser`, which renders the
  canonical compact byte representation of a value.  An unset raw
  message (nil slice) is `Option.none`.  Frames received from a channel
  are either invalid bytes or a JSON value with no leading whitespace.
* Go maps obtained by unmarshaling a JSON object are modelled by the
  association list of the object's fields.  Go's map iteration order is
  unspecified; the embedding processes fields in list order, which
  agrees with Go for objects without duplicate keys (every theorem that
  depends on the field list constrains the keys it mentions).
* Error values (*jrpc2.Error) carry a numeric code, a message, and
  optional data.  The numeric constants of the code package (which is
  not among the given sources) are taken from the specification.
-/

namespace Jrpc2

/-- A parsed JSON value.  Numbers are modelled as integers; no claim in
this development depends on non-integral numbers. -/
inductive JSON where
  | null
  | bool (b : Bool)
  | num (n : Int)
  | str (s : String)
  | arr (elts : List JSON)
  | obj (fields : List (String × JSON))

mutual

/-- Canonical compact rendering of a JSON value, standing for the raw
bytes of a json.RawMessage fragment. -/
def JSON.ser : JSON → String
  | JSON.null => "null"
  | JSON.bool true => "true"
  | JSON.bool false => "false"
  | JSON.num n => toString n
  | JSON.str s => "\"" ++ s ++ "\""
  | JSON.arr elts => "[" ++ JSON.serList elts ++ "]"
  | JSON.obj fields => "\x7b" ++ JSON.serFields fields ++ "\x7d"

/-- Comma-separated rendering of array elements. -/
def JSON.serList : List JSON → String
  | [] => ""
  | [x] => JSON.ser x
  | x :: xs => JSON.ser x ++ "," ++ JSON.serList xs

/-- Comma-separated rendering of object fields. -/
def JSON.serFields : List (String × JSON) → String
  | [] => ""
  | [(k, v)] => "\"" ++ k ++ "\":" ++ JSON.ser v
  | (k, v) :: xs => "\"" ++ k ++ "\":" ++ JSON.ser v ++ "," ++ JSON.serFields xs

end

/-- Whether the first byte of the raw rendering of a value is '[' or
'\x7b', the check Go performs on params (j.P[0]).  A raw fragment starts
with one of those bytes exactly when it is an array or object. -/
def JSON.isArrOrObjByte : JSON → Bool
  | JSON.arr _ => true
  | JSON.obj _ => true
  | _ => false

/-- Whether the value is the JSON literal null (raw bytes "null"). -/
def JSON.isNull : JSON → Bool
  | JSON.null => true
  | _ => false

/-- Whether the value is a JSON array. -/
def JSON.isArr : JSON → Bool
  | JSON.arr _ => true
  | _ => false

/-- Whether the value is a JSON object. -/
def JSON.isObj : JSON → Bool
  | JSON.obj _ => true
  | _ => false

/-- The string for a possibly-nil raw message: Go string(m), which is ""
for a nil slice. -/
def rawString : Option JSON → String
  | none => ""
  | some j => j.ser

/-- Error is the concrete error type of the package: a code, a human
readable message, and optional data (base.go / error.go). -/
structure Error where
  code : Int
  message : String
  data : Option JSON := none

/-- Errorf creates an Error with the given code and message. -/
def Errorf (c : Int) (msg : String) : Error := { code := c, message := msg }

/-- Modelled from the spec: the numeric error codes of the code package
(not among the given sources): ParseError -32700. -/
def code.ParseError : Int := -32700

/-- Modelled from the spec: InvalidRequest -32600. -/
def code.InvalidRequest : Int := -32600

/-- Modelled from the spec: MethodNotFound -32601. -/
def code.MethodNotFound : Int := -32601

/-- Modelled from the spec: InvalidParams -32602. -/
def code.InvalidParams : Int := -32602

/-- Modelled from the spec: InternalError -32603. -/
def code.InternalError : Int := -32603

/-- Modelled from the spec: the protocol version marker, the string
"2.0" (the constant is referenced by base.go but declared in a source
file not included here). -/
def Version : String := "2.0"

/-- ErrInvalidVersion is returned by ParseRequests if one or more of the
requests in the input has a missing or invalid version marker. -/
def ErrInvalidVersion : Error := Errorf code.InvalidRequest "incorrect version marker"

/-- fixID filters id, treating "null" (the raw bytes of the JSON null
literal) as a synonym for an unset ID. -/
def fixID : Option JSON → Option JSON
  | some JSON.null => none
  | id => id

/-- A Request is a request message from a client to a server (base.go).
`id` holds the raw request ID, none for notifications. -/
structure Request where
  id : Option JSON := none
  method : String := ""
  params : Option JSON := none

/-- IsNotification reports whether the request is a notification
(r.id == nil). -/
def Request.IsNotification (r : Request) : Bool := r.id.isNone

/-- ID returns the request identifier for r, or "" if r is a
notification (string(r.id)). -/
def Request.ID (r : Request) : String := rawString r.id

/-- HasParams reports whether the request has non-empty parameters. -/
def Request.HasParams (r : Request) : Bool := r.params.isSome

/-- jrequest is the transmission format of a request message.  V, ID, M,
P mirror the Go struct fields; `err` is the per-request validity error
set by fail; `batch` records that the request arrived in a batch. -/
structure jrequest where
  V : String := ""
  ID : Option JSON := none
  M : String := ""
  P : Option JSON := none
  batch : Bool := false
  err : Option Error := none

/-- fail records err on the request (jrequest.fail). -/
def jrequest.fail (j : jrequest) (c : Int) (msg : String) : jrequest :=
  { j with err := some (Errorf c msg) }

/-- One iteration of the field switch in jrequest.parseJSON: the request
and the collected extra field names, updated by one key/value pair of
the unmarshaled object. -/
def jrequest.applyField (acc : jrequest × List String) (kv : String × JSON) :
    jrequest × List String :=
  if kv.1 = "jsonrpc" then
    -- json.Unmarshal(val, &j.V): a JSON string stores it, the literal
    -- null is a no-op, anything else fails.
    match kv.2 with
    | JSON.str s => ({ acc.1 with V := s }, acc.2)
    | JSON.null => (acc.1, acc.2)
    | _ => (jrequest.fail acc.1 code.ParseError "invalid version key", acc.2)
  else if kv.1 = "id" then
    ({ acc.1 with ID := some kv.2 }, acc.2)
  else if kv.1 = "method" then
    match kv.2 with
    | JSON.str s => ({ acc.1 with M := s }, acc.2)
    | JSON.null => (acc.1, acc.2)
    | _ => (jrequest.fail acc.1 code.ParseError "invalid method name", acc.2)
  else if kv.1 = "params" then
    -- As a special case, reduce "null" to nil in the parameters.
    -- Otherwise, require per spec that val is an array or object.
    let j := match kv.2 with
      | JSON.null => acc.1
      | v => { acc.1 with P := some v }
    if j.P.isSome && !(j.P.getD JSON.null).isArrOrObjByte then
      (jrequest.fail j code.InvalidRequest "parameters must be array or object", acc.2)
    else
      (j, acc.2)
  else
    (acc.1, acc.2 ++ [kv.1])

/-- jrequest.parseJSON: parse one request from a raw message.  An
object is folded field by field, and extraneous fields fail the request
with InvalidRequest.  The literal null parses as an empty request with
no error: json.Unmarshal of null into map[string]json.RawMessage
succeeds leaving the map nil, so the field loop runs zero times.  Any
other non-object value fails with ParseError. -/
def jrequest.parseJSON : JSON → jrequest
  | JSON.obj fields =>
      if (fields.foldl jrequest.applyField ({}, [])).2 ≠ [] then
        jrequest.fail (fields.foldl jrequest.applyField ({}, [])).1
          code.InvalidRequest "extra fields in request"
      else (fields.foldl jrequest.applyField ({}, [])).1
  | JSON.null => {}
  | _ => jrequest.fail {} code.ParseError "request is not a JSON object"

/-- An inbound frame: either bytes that are not a valid JSON value (the
flag records whether the first byte is '[', selecting Go's batch or
single-message unmarshal error), or a valid JSON value written with no
leading whitespace. -/
inductive Frame where
  | invalid (startsWithArrayByte : Bool)
  | val (j : JSON)

/-- jrequests is either a single request or a slice of requests. -/
abbrev jrequests := List jrequest

/-- jrequests.parseJSON: a frame whose first byte is not '[' is
unmarshaled as a single raw message, otherwise as a slice of raw
messages; each message is then parsed without failing the batch. -/
def jrequests.parseJSON : Frame → Except Error jrequests
  | Frame.invalid b =>
      Except.error (Errorf code.ParseError
        (if b then "invalid request batch" else "invalid request message"))
  | Frame.val (JSON.arr elts) =>
      Except.ok (elts.map (fun raw => { jrequest.parseJSON raw with batch := true }))
  | Frame.val j =>
      Except.ok [{ jrequest.parseJSON j with batch := false }]

/-- The per-element conversion done by ParseRequests (base.go lines
99-103). -/
def jrequest.toRequest (q : jrequest) : Request :=
  { id := fixID q.ID, method := q.M, params := q.P }

/-- ParseRequests parses a single request or a batch of requests from a
frame.  The Go signature returns a slice together with an error that may
be set alongside the results; this is modelled as a parse failure or a
pair of the results and the optional ErrInvalidVersion. -/
def ParseRequests (f : Frame) : Except Error (List Request × Option Error) :=
  match jrequests.parseJSON f with
  | Except.error e => Except.error e
  | Except.ok reqs =>
      Except.ok (reqs.map jrequest.toRequest,
        if reqs.any (fun q => q.V != Version) then some ErrInvalidVersion else none)

/-- Marshaling of a jrequest (Go json.Marshal with the struct tags of
base.go: jsonrpc, id omitempty, method, params omitempty, in struct
field order). -/
def jrequest.marshal (j : jrequest) : JSON :=
  JSON.obj ([("jsonrpc", JSON.str j.V)]
    ++ (match j.ID with | some v => [("id", v)] | none => [])
    ++ [("method", JSON.str j.M)]
    ++ (match j.P with | some v => [("params", v)] | none => []))

/-- jrequests.toJSON: a single element marshals as a bare object (the
batch flag of the element is not consulted); otherwise the slice
marshals as an array. -/
def jrequests.toJSON (j : jrequests) : JSON :=
  match j with
  | [r] => r.marshal
  | _ => JSON.arr (j.map jrequest.marshal)

/-- jerror is the transmission format of an error object. -/
structure jerror where
  Code : Int
  Msg : String := ""
  Data : Option JSON := none

/-- jresponse is the transmission format of a response message,
including the extension fields M and P for server-initiated requests,
and the batch flag recording that the originating request arrived in a
batch. -/
structure jresponse where
  V : String := ""
  ID : Option JSON := none
  E : Option jerror := none
  R : Option JSON := none
  M : String := ""
  P : Option JSON := none
  batch : Bool := false

/-- isServerRequest reports whether the parsed message is a
server-initiated request: no error, no result, and a non-empty method
name (base.go line 327). -/
def jresponse.isServerRequest (j : jresponse) : Bool :=
  j.E.isNone && j.R.isNone && j.M != ""

/-- Marshaling of a jerror (tags: code, message omitempty, data
omitempty). -/
def jerror.marshal (e : jerror) : JSON :=
  JSON.obj ([("code", JSON.num e.Code)]
    ++ (if e.Msg = "" then [] else [("message", JSON.str e.Msg)])
    ++ (match e.Data with | some v => [("data", v)] | none => []))

/-- Marshaling of a jresponse (tags: jsonrpc, id omitempty, error
omitempty, result omitempty, method omitempty, params omitempty). -/
def jresponse.marshal (j : jresponse) : JSON :=
  JSON.obj ([("jsonrpc", JSON.str j.V)]
    ++ (match j.ID with | some v => [("id", v)] | none => [])
    ++ (match j.E with | some e => [("error", e.marshal)] | none => [])
    ++ (match j.R with | some v => [("result", v)] | none => [])
    ++ (if j.M = "" then [] else [("method", JSON.str j.M)])
    ++ (match j.P with | some v => [("params", v)] | none => []))

/-- jresponses is a slice of responses, encoded as a single response if
there is exactly one. -/
abbrev jresponses := List jresponse

/-- jresponses.toJSON: a single element whose batch flag is unset
marshals as a bare object; otherwise the slice marshals as an array. -/
def jresponses.toJSON (j : jresponses) : JSON :=
  match j with
  | [r] => if !r.batch then r.marshal else JSON.arr [r.marshal]
  | _ => JSON.arr (j.map jresponse.marshal)

/-- A Response is a response message from a server to a client.  The
completion channel and cancel hook are modelled as inputs and outputs of
`Response.wait` below. -/
structure Response where
  id : String := ""
  err : Option Error := none
  result : Option JSON := none

/-- The observable effects of one call of Response.wait that received a
value: the updated response, whether the completion channel was closed,
whether the cancel hook ran, and the panic message if wait panicked. -/
structure WaitOutcome where
  rsp : Response
  channelClosed : Bool
  cancelCalled : Bool
  panicMsg : Option String

/-- Response.wait, modelling the channel receive as an argument: `none`
is a receive from an already-closed channel (ok == false, nothing
happens); `some raw` is the first real value.  The waiter stores the
error and result, closes the channel, cancels the context observer, and
only then panics if the delivered ID does not match. -/
def Response.wait (r : Response) (recv : Option jresponse) : WaitOutcome :=
  match recv with
  | none => { rsp := r, channelClosed := false, cancelCalled := false, panicMsg := none }
  | some raw =>
      let r1 := match raw.E with
        | some e => { r with err := some { code := e.Code, message := e.Msg, data := e.Data } }
        | none => r
      let r2 := { r1 with result := raw.R }
      let idStr := rawString (fixID raw.ID)
      { rsp := r2, channelClosed := true, cancelCalled := true,
        panicMsg :=
          if idStr ≠ r.id then
            some ("Mismatched response ID \"" ++ idStr ++ "\" expecting \"" ++ r.id ++ "\"")
          else none }

/-- isServiceName reports whether the bytes look like a legal service
name: letters, digits, and "-".  Go iterates the bytes of the string;
the model iterates characters, which gives the same verdict because any
non-ASCII character (and each byte of its UTF-8 encoding) falls outside
the accepted ranges. -/
def isServiceName (s : List Char) : Bool :=
  s.all (fun b =>
    (decide ('0' ≤ b) && decide (b ≤ '9'))
    || (decide ('A' ≤ b) && decide (b ≤ 'Z'))
    || (decide ('a' ≤ b) && decide (b ≤ 'z'))
    || (b == '-'))

/-- Split a character list at its last ':' (strings.LastIndex(s, ":")):
none when there is no colon, otherwise the part before and the part
after the last colon. -/
def splitLastColon : List Char → Option (List Char × List Char)
  | [] => none
  | c :: cs =>
      match splitLastColon cs with
      | some (h, t) => some (c :: h, t)
      | none => if c = ':' then some ([], cs) else none

/-- Network guesses a network type for the specified address: "unix"
when there is no colon, when the part after the last colon is empty or
is not a service name, or when the part before it contains '/';
otherwise "tcp". -/
def Network (s : String) : String :=
  match splitLastColon s.toList with
  | none => "unix"
  | some (host, port) =>
      if port.isEmpty || !isServiceName port then "unix"
      else if host.contains '/' then "unix"
      else "tcp"

/-- Request.UnmarshalParams with target []json.RawMessage (as used by
handleRPCCancel): empty params decode to nil without error, a JSON
array yields its raw elements, the literal null is a no-op, and any
other value is a JSON type error. -/
def unmarshalRawMessages : Option JSON → Except String (List JSON)
  | none => Except.ok []
  | some (JSON.arr elts) => Except.ok elts
  | some JSON.null => Except.ok []
  | some _ => Except.error "cannot unmarshal value into []json.RawMessage"

/-- Modelled from the spec: the server's pending map is represented by
the list of pending request ids, and Server.cancel (declared in a source
file not included here) invokes the cancel function of the id and
reports whether the id was found pending. -/
def Server.cancel (pending : List String) (id : String) : Bool :=
  pending.contains id

/-- Server.cancelRequests: for each raw id, cancel string(raw); the
result is the list of ids whose cancel function was invoked (those found
in the pending map). -/
def Server.cancelRequests (pending : List String) (ids : List JSON) : List String :=
  (ids.map JSON.ser).filter (fun id => Server.cancel pending id)

/-- The result returned by handleRPCCancel: a non-nil error (the
MethodNotFound case), the json error from unmarshaling params, or the
nil, nil success. -/
inductive RPCCancelResult where
  | failed (e : Error)
  | badParams (msg : String)
  | done

/-- Server.handleRPCCancel: the special rpc.cancel notification.  Issued
as a call (InboundRequest(ctx) is the request itself), it fails with
MethodNotFound and cancels nothing; as a notification it unmarshals the
params into raw ids and cancels each id found pending.  The second
component is the list of ids whose cancel function ran. -/
def Server.handleRPCCancel (pending : List String) (req : Request) :
    RPCCancelResult × List String :=
  if !req.IsNotification then
    (RPCCancelResult.failed (Errorf code.MethodNotFound "method not found"), [])
  else
    match unmarshalRawMessages req.params with
    | Except.error m => (RPCCancelResult.badParams m, [])
    | Except.ok ids => (RPCCancelResult.done, Server.cancelRequests pending ids)

/-- jmessage is the combined transmission format used by the client side
(opts.go handleCallback): version, raw id, result, error, and the
extension fields method and params. -/
structure jmessage where
  V : String := ""
  ID : Option JSON := none
  M : String := ""
  P : Option JSON := none
  R : Option JSON := none
  E : Option Error := none

/-- The behaviour of one invocation of the OnCallback handler: it
returns a marshalable value, returns a *jrpc2.Error, returns a plain
error, or panics. -/
inductive CBOutcome where
  | ok (v : JSON)
  | errRPC (e : Error)
  | errPlain (msg : String)
  | panicked (msg : String)

/-- The error side of panicToError: a *jrpc2.Error or a plain error
message. -/
inductive CBErr where
  | rpc (e : Error)
  | plain (msg : String)

/-- panicToError runs the wrapped handler, recovering a panic p into the
plain error "panic in callback handler: p". -/
def panicToError : CBOutcome → Except CBErr JSON
  | CBOutcome.ok v => Except.ok v
  | CBOutcome.errRPC e => Except.error (CBErr.rpc e)
  | CBOutcome.errPlain m => Except.error (CBErr.plain m)
  | CBOutcome.panicked m => Except.error (CBErr.plain ("panic in callback handler: " ++ m))

/-- The conversion of an error from the callback into the response
error: a *jrpc2.Error is used as is; a plain error gets its code from
code.FromError, which is modelled from the spec ("converted to an
internal-error response") as InternalError since the code package is
not among the given sources. -/
def errorOfCBErr : CBErr → Error
  | CBErr.rpc e => e
  | CBErr.plain m => { code := code.InternalError, message := m }

/-- ClientOptions.handleCallback: builds the reply message with the
version marker and the request's id, runs the handler through
panicToError, and stores either the marshaled result or the error (the
result field is reset to nil on error).  Marshaling of the model's JSON
values always succeeds. -/
def ClientOptions.handleCallback (req : jmessage) (cb : CBOutcome) : jmessage :=
  let rsp : jmessage := { V := Version, ID := req.ID }
  match panicToError cb with
  | Except.ok v => { rsp with R := some v }
  | Except.error ce => { rsp with R := none, E := some (errorOfCBErr ce) }

/-- Whether a value is a JSON string or the literal null: the values on
which json.Unmarshal into a Go string succeeds. -/
def JSON.isStrOrNull : JSON → Bool
  | JSON.str _ => true
  | JSON.null => true
  | _ => false

/-- A field that the switch of jrequest.parseJSON processes without
touching P, err, or the extra list: a version or method key with a
string or null value, or an id key. -/
def benignField (kv : String × JSON) : Bool :=
  if kv.1 = "jsonrpc" then kv.2.isStrOrNull
  else if kv.1 = "id" then true
  else if kv.1 = "method" then kv.2.isStrOrNull
  else false

/-- The character class of the claim for Network: ASCII letters, digits,
and lower dash. -/
def specPortChar (c : Char) : Prop :=
  ('0' ≤ c ∧ c ≤ '9') ∨ ('A' ≤ c ∧ c ≤ 'Z') ∨ ('a' ≤ c ∧ c ≤ 'z') ∨ c = '-'

instance specPortChar.instDecidable (c : Char) : Decidable (specPortChar c) := by
  unfold specPortChar
  infer_instance

/-- The claim's characterization of the tcp verdict, written from its
words: s splits at its last ':' into a host with no '/' and a non-empty
port composed only of ASCII letters, digits, and dashes. -/
def NetworkTcpSpec (s : String) : Prop :=
  ∃ host port : List Char,
    s.toList = host ++ ':' :: port ∧ ':' ∉ port ∧ port ≠ [] ∧
    (∀ c ∈ port, specPortChar c) ∧ '/' ∉ host

section Theorems

/-- A request parsed from a value that is neither an object nor the
literal null is the failed request. -/
theorem jrequest_parseJSON_not_obj (j : JSON) (h : j.isObj = false) (hn : j.isNull = false) :
    jrequest.parseJSON j = jrequest.fail {} code.ParseError "request is not a JSON object" := by
  cases j with
  | null => simp [JSON.isNull] at hn
  | bool b => rfl
  | num n => rfl
  | str s => rfl
  | arr elts => rfl
  | obj fields => simp [JSON.isObj] at h

/-- The field step commutes with overwriting the ID for every key other
than "id": no branch of the switch reads or writes the ID field. -/
theorem applyField_ID_comm (j : jrequest) (ex : List String) (x : Option JSON)
    (kv : String × JSON) (hk : kv.1 ≠ "id") :
    jrequest.applyField ({ j with ID := x }, ex) kv =
      ({ (jrequest.applyField (j, ex) kv).1 with ID := x },
       (jrequest.applyField (j, ex) kv).2) := by
  rcases kv with ⟨k, v⟩
  by_cases h1 : k = "jsonrpc"
  · subst h1
    cases v <;> simp [jrequest.applyField, jrequest.fail]
  · by_cases h3 : k = "method"
    · subst h3
      cases v <;> simp [jrequest.applyField, jrequest.fail, h1]
    · by_cases h4 : k = "params"
      · subst h4
        cases v with
        | null =>
          by_cases hc : (j.P.isSome && !(j.P.getD JSON.null).isArrOrObjByte) = true <;>
            simp [jrequest.applyField, jrequest.fail, hc]
        | bool b => simp [jrequest.applyField, jrequest.fail, JSON.isArrOrObjByte]
        | num n => simp [jrequest.applyField, jrequest.fail, JSON.isArrOrObjByte]
        | str s => simp [jrequest.applyField, jrequest.fail, JSON.isArrOrObjByte]
        | arr elts => simp [jrequest.applyField, jrequest.fail, JSON.isArrOrObjByte]
        | obj fields => simp [jrequest.applyField, jrequest.fail, JSON.isArrOrObjByte]
      · simp only [ne_eq] at hk
        simp [jrequest.applyField, h1, h3, h4, hk]

/-- Folding fields none of which is an "id" key commutes with
overwriting the ID. -/
theorem foldl_applyField_ID (l : List (String × JSON)) (j : jrequest) (ex : List String)
    (x : Option JSON) (hid : "id" ∉ l.map Prod.fst) :
    l.foldl jrequest.applyField ({ j with ID := x }, ex) =
      ({ (l.foldl jrequest.applyField (j, ex)).1 with ID := x },
       (l.foldl jrequest.applyField (j, ex)).2) := by
  induction l generalizing j ex with
  | nil => rfl
  | cons kv l ih =>
    have hk : kv.1 ≠ "id" := by
      intro hh
      exact hid (by simp [hh])
    have hid' : "id" ∉ l.map Prod.fst := by
      intro hh
      exact hid (by simp [hh])
    simp only [List.foldl_cons]
    rw [applyField_ID_comm j ex x kv hk]
    exact ih _ _ hid'

/-- Folding only benign fields (version or method keys with string or
null values, and id keys) leaves the params, the error, and the extra
list unchanged. -/
theorem foldl_applyField_benign (l : List (String × JSON)) (j : jrequest) (ex : List String)
    (hb : ∀ kv ∈ l, benignField kv = true) :
    (l.foldl jrequest.applyField (j, ex)).1.P = j.P ∧
    (l.foldl jrequest.applyField (j, ex)).1.err = j.err ∧
    (l.foldl jrequest.applyField (j, ex)).2 = ex := by
  induction l generalizing j ex with
  | nil => exact ⟨rfl, rfl, rfl⟩
  | cons kv l ih =>
    have hkv : benignField kv = true := hb kv (List.mem_cons_self _ _)
    have hrest : ∀ x ∈ l, benignField x = true := fun x hx => hb x (List.mem_cons_of_mem kv hx)
    rcases kv with ⟨k, v⟩
    simp only [List.foldl_cons]
    by_cases h1 : k = "jsonrpc"
    · subst h1
      cases v <;> first
        | exact ih _ _ hrest
        | simp [benignField, JSON.isStrOrNull] at hkv
    · by_cases h2 : k = "id"
      · subst h2
        exact ih _ _ hrest
      · by_cases h3 : k = "method"
        · subst h3
          cases v <;> first
            | exact ih _ _ hrest
            | simp [benignField, JSON.isStrOrNull, h1] at hkv
        · simp [benignField, h1, h2, h3] at hkv

/-- The ID of a parsed object is the ID accumulated by the field fold
(the extra-fields failure only touches err). -/
theorem parseJSON_obj_ID (fields : List (String × JSON)) :
    (jrequest.parseJSON (JSON.obj fields)).ID =
      (fields.foldl jrequest.applyField ({}, [])).1.ID := by
  simp only [jrequest.parseJSON]
  split <;> rfl

/-- The method of a parsed object is the one accumulated by the fold. -/
theorem parseJSON_obj_M (fields : List (String × JSON)) :
    (jrequest.parseJSON (JSON.obj fields)).M =
      (fields.foldl jrequest.applyField ({}, [])).1.M := by
  simp only [jrequest.parseJSON]
  split <;> rfl

/-- The params of a parsed object are the ones accumulated by the fold. -/
theorem parseJSON_obj_P (fields : List (String × JSON)) :
    (jrequest.parseJSON (JSON.obj fields)).P =
      (fields.foldl jrequest.applyField ({}, [])).1.P := by
  simp only [jrequest.parseJSON]
  split <;> rfl

/-- The version of a parsed object is the one accumulated by the fold. -/
theorem parseJSON_obj_V (fields : List (String × JSON)) :
    (jrequest.parseJSON (JSON.obj fields)).V =
      (fields.foldl jrequest.applyField ({}, [])).1.V := by
  simp only [jrequest.parseJSON]
  split <;> rfl

/-- A value is recognized as null exactly when it is the null literal. -/
theorem JSON.isNull_iff (v : JSON) : v.isNull = true ↔ v = JSON.null := by
  cases v <;> simp [JSON.isNull]

/-- When the fold collects no extra field names, parsing the object is
exactly the fold's request. -/
theorem parseJSON_obj_of_no_extra (fields : List (String × JSON))
    (hex : (fields.foldl jrequest.applyField ({}, [])).2 = []) :
    jrequest.parseJSON (JSON.obj fields) =
      (fields.foldl jrequest.applyField ({}, [])).1 := by
  simp [jrequest.parseJSON, hex]

/-- Claim C2: a request object whose id field is the JSON literal null
parses to a Request with an empty ID that reports IsNotification, and
the parse result (including the version error) is exactly the one of the
same object with the id field omitted. -/
theorem C2_null_id_is_notification (l₁ l₂ : List (String × JSON))
    (h1 : "id" ∉ l₁.map Prod.fst) (h2 : "id" ∉ l₂.map Prod.fst) :
    ∃ r rerr r' rerr',
      ParseRequests (Frame.val (JSON.obj (l₁ ++ ("id", JSON.null) :: l₂))) =
        Except.ok ([r], rerr) ∧
      ParseRequests (Frame.val (JSON.obj (l₁ ++ l₂))) = Except.ok ([r'], rerr') ∧
      r.IsNotification = true ∧ r.ID = "" ∧ r = r' ∧ rerr = rerr' := by
  have hA : (l₁ ++ ("id", JSON.null) :: l₂).foldl jrequest.applyField
        (({} : jrequest), ([] : List String)) =
      ({ ((l₁ ++ l₂).foldl jrequest.applyField ({}, [])).1 with ID := some JSON.null },
       ((l₁ ++ l₂).foldl jrequest.applyField ({}, [])).2) := by
    rw [List.foldl_append, List.foldl_cons, List.foldl_append]
    rw [show jrequest.applyField (List.foldl jrequest.applyField ({}, []) l₁)
          ("id", JSON.null) =
        ({ (List.foldl jrequest.applyField (({} : jrequest), ([] : List String)) l₁).1 with
            ID := some JSON.null },
         (List.foldl jrequest.applyField (({} : jrequest), ([] : List String)) l₁).2) from by
      simp [jrequest.applyField]]
    exact foldl_applyField_ID l₂ _ _ _ h2
  have h12 : "id" ∉ (l₁ ++ l₂).map Prod.fst := by
    simp only [List.map_append, List.mem_append]
    rintro (hh | hh)
    · exact h1 hh
    · exact h2 hh
  have hIDB : (((l₁ ++ l₂).foldl jrequest.applyField ({}, ([] : List String)))).1.ID = none := by
    have hh := foldl_applyField_ID (l₁ ++ l₂) {} [] none h12
    exact congrArg (fun p => p.1.ID) hh
  have hridA : (jrequest.parseJSON (JSON.obj (l₁ ++ ("id", JSON.null) :: l₂))).ID =
      some JSON.null := by
    rw [parseJSON_obj_ID, hA]
  have hridB : (jrequest.parseJSON (JSON.obj (l₁ ++ l₂))).ID = none := by
    rw [parseJSON_obj_ID]
    exact hIDB
  have hM : (jrequest.parseJSON (JSON.obj (l₁ ++ ("id", JSON.null) :: l₂))).M =
      (jrequest.parseJSON (JSON.obj (l₁ ++ l₂))).M := by
    rw [parseJSON_obj_M, parseJSON_obj_M, hA]
  have hP : (jrequest.parseJSON (JSON.obj (l₁ ++ ("id", JSON.null) :: l₂))).P =
      (jrequest.parseJSON (JSON.obj (l₁ ++ l₂))).P := by
    rw [parseJSON_obj_P, parseJSON_obj_P, hA]
  have hV : (jrequest.parseJSON (JSON.obj (l₁ ++ ("id", JSON.null) :: l₂))).V =
      (jrequest.parseJSON (JSON.obj (l₁ ++ l₂))).V := by
    rw [parseJSON_obj_V, parseJSON_obj_V, hA]
  refine ⟨_, _, _, _, rfl, rfl, ?_, ?_, ?_, ?_⟩
  · dsimp only [jrequest.toRequest, Request.IsNotification]
    rw [hridA]
    rfl
  · dsimp only [jrequest.toRequest, Request.ID]
    rw [hridA]
    rfl
  · dsimp only [jrequest.toRequest]
    rw [hridA, hridB, hM, hP]
    rfl
  · dsimp only []
    rw [hV]
    rfl

/-- Witness for C2: a concrete request object carrying "id": null. -/
theorem C2_witness :
    ∃ r rerr r' rerr',
      ParseRequests (Frame.val (JSON.obj ([("jsonrpc", JSON.str "2.0")] ++
        ("id", JSON.null) :: [("method", JSON.str "m")]))) = Except.ok ([r], rerr) ∧
      ParseRequests (Frame.val (JSON.obj ([("jsonrpc", JSON.str "2.0")] ++
        [("method", JSON.str "m")]))) = Except.ok ([r'], rerr') ∧
      r.IsNotification = true ∧ r.ID = "" ∧ r = r' ∧ rerr = rerr' :=
  C2_null_id_is_notification [("jsonrpc", JSON.str "2.0")] [("method", JSON.str "m")]
    (by decide) (by decide)

/-- Claim C3: a params field must be an array, an object, or the literal
null: null normalizes to absent params without error, an array or object
is stored as given, and any other value marks the request failed with
InvalidRequest (-32600), all other fields of the object being benign. -/
theorem C3_params_validation (l₁ l₂ : List (String × JSON)) (v : JSON)
    (hb1 : ∀ kv ∈ l₁, benignField kv = true) (hb2 : ∀ kv ∈ l₂, benignField kv = true) :
    (v.isNull = true →
      (jrequest.parseJSON (JSON.obj (l₁ ++ ("params", v) :: l₂))).P = none ∧
      (jrequest.parseJSON (JSON.obj (l₁ ++ ("params", v) :: l₂))).err = none) ∧
    (v.isArrOrObjByte = true →
      (jrequest.parseJSON (JSON.obj (l₁ ++ ("params", v) :: l₂))).P = some v ∧
      (jrequest.parseJSON (JSON.obj (l₁ ++ ("params", v) :: l₂))).err = none) ∧
    (v.isNull = false → v.isArrOrObjByte = false →
      (jrequest.parseJSON (JSON.obj (l₁ ++ ("params", v) :: l₂))).P = some v ∧
      (jrequest.parseJSON (JSON.obj (l₁ ++ ("params", v) :: l₂))).err =
        some (Errorf code.InvalidRequest "parameters must be array or object")) := by
  obtain ⟨hsP, hserr, hsex⟩ := foldl_applyField_benign l₁ {} [] hb1
  have hfoldA : ∀ w : JSON, (l₁ ++ ("params", w) :: l₂).foldl jrequest.applyField
        (({} : jrequest), ([] : List String)) =
      l₂.foldl jrequest.applyField
        (jrequest.applyField (l₁.foldl jrequest.applyField ({}, [])) ("params", w)) := by
    intro w
    rw [List.foldl_append, List.foldl_cons]
  refine ⟨?_, ?_, ?_⟩
  · intro hv
    obtain rfl := (JSON.isNull_iff v).mp hv
    have hstep : jrequest.applyField (l₁.foldl jrequest.applyField ({}, []))
        ("params", JSON.null) = l₁.foldl jrequest.applyField ({}, []) := by
      simp [jrequest.applyField, hsP]
    obtain ⟨hP2, herr2, hex2⟩ := foldl_applyField_benign l₂
      (l₁.foldl jrequest.applyField ({}, [])).1
      (l₁.foldl jrequest.applyField ({}, [])).2 hb2
    have hexA : ((l₁ ++ ("params", JSON.null) :: l₂).foldl jrequest.applyField ({}, [])).2 =
        [] := by
      rw [hfoldA JSON.null, hstep]
      exact hex2.trans hsex
    constructor
    · rw [parseJSON_obj_of_no_extra _ hexA, hfoldA JSON.null, hstep]
      exact hP2.trans hsP
    · rw [parseJSON_obj_of_no_extra _ hexA, hfoldA JSON.null, hstep]
      exact herr2.trans hserr
  · intro hv
    have hstep : jrequest.applyField (l₁.foldl jrequest.applyField ({}, []))
        ("params", v) =
        ({ (l₁.foldl jrequest.applyField (({} : jrequest), ([] : List String))).1 with
            P := some v },
         (l₁.foldl jrequest.applyField (({} : jrequest), ([] : List String))).2) := by
      cases v with
      | arr elts => simp [jrequest.applyField, JSON.isArrOrObjByte]
      | obj fields => simp [jrequest.applyField, JSON.isArrOrObjByte]
      | _ => simp [JSON.isArrOrObjByte] at hv
    obtain ⟨hP2, herr2, hex2⟩ := foldl_applyField_benign l₂
      { (l₁.foldl jrequest.applyField (({} : jrequest), ([] : List String))).1 with
          P := some v }
      (l₁.foldl jrequest.applyField (({} : jrequest), ([] : List String))).2 hb2
    have hexA : ((l₁ ++ ("params", v) :: l₂).foldl jrequest.applyField ({}, [])).2 = [] := by
      rw [hfoldA v, hstep]
      exact hex2.trans hsex
    constructor
    · rw [parseJSON_obj_of_no_extra _ hexA, hfoldA v, hstep]
      exact hP2
    · rw [parseJSON_obj_of_no_extra _ hexA, hfoldA v, hstep]
      exact herr2.trans hserr
  · intro hvn hvb
    have hstep : jrequest.applyField (l₁.foldl jrequest.applyField ({}, []))
        ("params", v) =
        (jrequest.fail
          { (l₁.foldl jrequest.applyField (({} : jrequest), ([] : List String))).1 with
              P := some v }
          code.InvalidRequest "parameters must be array or object",
         (l₁.foldl jrequest.applyField (({} : jrequest), ([] : List String))).2) := by
      cases v with
      | null => simp [JSON.isNull] at hvn
      | arr elts => simp [JSON.isArrOrObjByte] at hvb
      | obj fields => simp [JSON.isArrOrObjByte] at hvb
      | _ => simp [jrequest.applyField, JSON.isArrOrObjByte]
    obtain ⟨hP2, herr2, hex2⟩ := foldl_applyField_benign l₂
      (jrequest.fail
        { (l₁.foldl jrequest.applyField (({} : jrequest), ([] : List String))).1 with
            P := some v }
        code.InvalidRequest "parameters must be array or object")
      (l₁.foldl jrequest.applyField (({} : jrequest), ([] : List String))).2 hb2
    have hexA : ((l₁ ++ ("params", v) :: l₂).foldl jrequest.applyField ({}, [])).2 = [] := by
      rw [hfoldA v, hstep]
      exact hex2.trans hsex
    constructor
    · rw [parseJSON_obj_of_no_extra _ hexA, hfoldA v, hstep]
      exact hP2
    · rw [parseJSON_obj_of_no_extra _ hexA, hfoldA v, hstep]
      exact herr2

/-- Witness for C3: a concrete request object whose params field is the
number 3 is marked failed with InvalidRequest. -/
theorem C3_witness :
    (jrequest.parseJSON (JSON.obj ([("jsonrpc", JSON.str "2.0")] ++
      ("params", JSON.num 3) :: [("method", JSON.str "m")]))).P = some (JSON.num 3) ∧
    (jrequest.parseJSON (JSON.obj ([("jsonrpc", JSON.str "2.0")] ++
      ("params", JSON.num 3) :: [("method", JSON.str "m")]))).err =
      some (Errorf code.InvalidRequest "parameters must be array or object") :=
  (C3_params_validation [("jsonrpc", JSON.str "2.0")] [("method", JSON.str "m")]
    (JSON.num 3) (by decide) (by decide)).2.2 rfl rfl

/-- Claim C1: for every batch of requests or responses containing
exactly one element, encoding emits a JSON array of one object.  This
fails on the request side: jrequests.toJSON serializes a one-element
slice as a bare object even when the element carries the batch marker.
The counterexample evaluates the encoder on a one-element request batch
whose batch flag is set and observes that the result is not an array. -/
theorem C1_counterexample :
    JSON.isArr (jrequests.toJSON [{ V := Version, M := "foo", batch := true }]) = false := rfl

/-- Claim C1 (amended): a one-element batch of responses whose element
carries the batch marker is encoded as a JSON array of one object, so
the response batch marker survives the round trip; a one-element slice
of requests is always encoded as the bare object of its single element,
so the request batch marker is not preserved. -/
theorem C1_single_element_batch_encoding :
    (∀ r : jresponse, r.batch = true → jresponses.toJSON [r] = JSON.arr [r.marshal]) ∧
    (∀ q : jrequest, jrequests.toJSON [q] = q.marshal) := by
  constructor
  · intro r h
    simp [jresponses.toJSON, h]
  · intro q
    rfl

/-- Witness for C1: the amended theorem applied to a concrete response
with the batch flag set. -/
theorem C1_witness :
    jresponses.toJSON [{ V := Version, batch := true }] =
      JSON.arr [jresponse.marshal { V := Version, batch := true }] :=
  C1_single_element_batch_encoding.1 { V := Version, batch := true } rfl

/-- Claim C4: when at least one parsed request has a missing or wrong
version marker, ParseRequests returns ErrInvalidVersion together with
the complete converted batch: every parsed member is kept. -/
theorem C4_invalid_version_keeps_batch (f : Frame) (reqs : jrequests)
    (h : jrequests.parseJSON f = Except.ok reqs)
    (hv : reqs.any (fun q => q.V != Version) = true) :
    ParseRequests f = Except.ok (reqs.map jrequest.toRequest, some ErrInvalidVersion) ∧
    (reqs.map jrequest.toRequest).length = reqs.length := by
  refine ⟨?_, by simp⟩
  simp [ParseRequests, h, hv]

/-- Witness for C4: a single request object with no version marker. -/
theorem C4_witness :
    ParseRequests (Frame.val (JSON.obj [])) =
      Except.ok (([{}] : jrequests).map jrequest.toRequest, some ErrInvalidVersion) :=
  (C4_invalid_version_keeps_batch (Frame.val (JSON.obj [])) [{}] rfl rfl).1

/-- Claim C5: the claim that every input frame that is not a JSON
object nor an array of objects fails with ParseError is false at the
JSON literal null: Go's Unmarshal of null into the field map succeeds
with no error, so the null frame parses to a single empty request that
carries no error at all (it is only rejected later by the version
check), and neither the batch parse nor the request is failed with
ParseError. -/
theorem C5_counterexample :
    jrequests.parseJSON (Frame.val JSON.null) = Except.ok [{}] ∧
    ({} : jrequest).err = none :=
  ⟨rfl, rfl⟩

/-- Claim C5 (amended): an input frame that is not a JSON object, a
JSON array, or the literal null fails with ParseError: invalid bytes
fail the whole parse, a valid value other than an object, array, or
null yields a single request marked failed with ParseError, and an
array member that is neither an object nor null is marked failed with
ParseError; the literal null instead parses as an empty request with no
error. -/
theorem C5_non_object_input_parse_error :
    (∀ b, jrequests.parseJSON (Frame.invalid b) =
      Except.error (Errorf code.ParseError
        (if b then "invalid request batch" else "invalid request message"))) ∧
    (∀ j : JSON, j.isObj = false → j.isArr = false → j.isNull = false →
      ∃ q, jrequests.parseJSON (Frame.val j) = Except.ok [q] ∧
        q.err = some (Errorf code.ParseError "request is not a JSON object")) ∧
    (∀ elts : List JSON, ∀ i, ∀ hi : i < elts.length,
      (elts.get ⟨i, hi⟩).isObj = false → (elts.get ⟨i, hi⟩).isNull = false →
      ∃ reqs, jrequests.parseJSON (Frame.val (JSON.arr elts)) = Except.ok reqs ∧
        ∃ hr : i < reqs.length,
          (reqs.get ⟨i, hr⟩).err = some (Errorf code.ParseError "request is not a JSON object")) := by
  refine ⟨fun b => rfl, ?_, ?_⟩
  · intro j hobj harr hnull
    cases j
    case obj fields => simp [JSON.isObj] at hobj
    case arr elts => simp [JSON.isArr] at harr
    case null => simp [JSON.isNull] at hnull
    all_goals exact ⟨_, rfl, rfl⟩
  · intro elts i hi hx hn
    refine ⟨_, rfl, ?_⟩
    have hr : i < (elts.map (fun raw => { jrequest.parseJSON raw with batch := true })).length := by
      simpa using hi
    refine ⟨hr, ?_⟩
    rw [List.get_map]
    rw [jrequest_parseJSON_not_obj _ hx hn]
    rfl

/-- Witness for C5: a top-level JSON number, and a batch whose first
member is a JSON string. -/
theorem C5_witness :
    (∃ q, jrequests.parseJSON (Frame.val (JSON.num 3)) = Except.ok [q] ∧
      q.err = some (Errorf code.ParseError "request is not a JSON object")) ∧
    (∃ reqs, jrequests.parseJSON (Frame.val (JSON.arr [JSON.str "hi"])) = Except.ok reqs ∧
      ∃ hr : 0 < reqs.length,
        (reqs.get ⟨0, hr⟩).err = some (Errorf code.ParseError "request is not a JSON object")) :=
  ⟨C5_non_object_input_parse_error.2.1 (JSON.num 3) rfl rfl rfl,
   C5_non_object_input_parse_error.2.2 [JSON.str "hi"] 0 (by decide) rfl rfl⟩

/-- Claim C7: rpc.cancel received as a call fails with MethodNotFound
and cancels nothing; the notification form takes the ids of its params
array and invokes the cancel function of exactly those found pending. -/
theorem C7_rpc_cancel_notification_only (pending : List String) (req : Request) :
    (req.IsNotification = false →
      Server.handleRPCCancel pending req =
        (RPCCancelResult.failed (Errorf code.MethodNotFound "method not found"), [])) ∧
    (∀ ids, req.IsNotification = true → req.params = some (JSON.arr ids) →
      (Server.handleRPCCancel pending req).1 = RPCCancelResult.done ∧
      ∀ s, s ∈ (Server.handleRPCCancel pending req).2 ↔
        ∃ raw ∈ ids, s = JSON.ser raw ∧ pending.contains s = true) := by
  constructor
  · intro h
    simp [Server.handleRPCCancel, h]
  · intro ids h hp
    have hh : Server.handleRPCCancel pending req =
        (RPCCancelResult.done, Server.cancelRequests pending ids) := by
      simp [Server.handleRPCCancel, h, hp, unmarshalRawMessages]
    rw [hh]
    refine ⟨rfl, ?_⟩
    intro s
    simp only [Server.cancelRequests, Server.cancel, List.mem_filter, List.mem_map]
    constructor
    · rintro ⟨⟨raw, hraw, hser⟩, hmem⟩
      exact ⟨raw, hraw, hser.symm, hmem⟩
    · rintro ⟨raw, hraw, hser, hmem⟩
      exact ⟨⟨raw, hraw, hser.symm⟩, hmem⟩

/-- Witness for C7: a call-form rpc.cancel is rejected, and a
notification with params ["1"] cancels the pending id "1". -/
theorem C7_witness :
    Server.handleRPCCancel ["1"] { id := some (JSON.num 7), method := "rpc.cancel" } =
      (RPCCancelResult.failed (Errorf code.MethodNotFound "method not found"), []) ∧
    (Server.handleRPCCancel ["1"]
      { method := "rpc.cancel", params := some (JSON.arr [JSON.num 1]) }).1 =
        RPCCancelResult.done :=
  ⟨(C7_rpc_cancel_notification_only ["1"]
      { id := some (JSON.num 7), method := "rpc.cancel" }).1 rfl,
   ((C7_rpc_cancel_notification_only ["1"]
      { method := "rpc.cancel", params := some (JSON.arr [JSON.num 1]) }).2
        [JSON.num 1] rfl rfl).1⟩

/-- Claim C8: a panicking OnCallback handler is recovered into a reply
that echoes the callback's id and carries an error and no result. -/
theorem C8_callback_panic_recovered (req : jmessage) (m : String) :
    (ClientOptions.handleCallback req (CBOutcome.panicked m)).ID = req.ID ∧
    (ClientOptions.handleCallback req (CBOutcome.panicked m)).R = none ∧
    (ClientOptions.handleCallback req (CBOutcome.panicked m)).E =
      some { code := code.InternalError, message := "panic in callback handler: " ++ m } :=
  ⟨rfl, rfl, rfl⟩

/-- Claim C9: a parsed inbound message is classified as a
server-initiated request exactly when its method field is non-empty and
both its error and result fields are absent. -/
theorem C9_server_request_classification (j : jresponse) :
    j.isServerRequest = true ↔ (j.E = none ∧ j.R = none ∧ j.M ≠ "") := by
  simp [jresponse.isServerRequest, Option.isNone_iff_eq_none, bne_iff_ne, Bool.and_eq_true,
    and_assoc]

/-- Claim C10: completing a pending Response with a received reply first
stores the reply's result and error, closes the completion channel and
runs the cancel hook, and panics exactly when the normalized reply id
differs from the pending id: these delivery effects hold even on the
panicking path, and a matching id never panics. -/
theorem C10_wait_delivers_before_id_panic (r : Response) (raw : jresponse) :
    (Response.wait r (some raw)).rsp.result = raw.R ∧
    (Response.wait r (some raw)).rsp.err =
      (match raw.E with
        | some e => some { code := e.Code, message := e.Msg, data := e.Data }
        | none => r.err) ∧
    (Response.wait r (some raw)).channelClosed = true ∧
    (Response.wait r (some raw)).cancelCalled = true ∧
    ((Response.wait r (some raw)).panicMsg.isSome = true ↔ rawString (fixID raw.ID) ≠ r.id) := by
  cases hE : raw.E with
  | none =>
      refine ⟨by simp [Response.wait, hE], by simp [Response.wait, hE], rfl, rfl, ?_⟩
      by_cases hid : rawString (fixID raw.ID) = r.id <;>
        simp [Response.wait, hE, hid]
  | some e =>
      refine ⟨by simp [Response.wait, hE], by simp [Response.wait, hE], rfl, rfl, ?_⟩
      by_cases hid : rawString (fixID raw.ID) = r.id <;>
        simp [Response.wait, hE, hid]

/-- splitLastColon finds nothing exactly when the list has no colon. -/
theorem splitLastColon_eq_none {cs : List Char} : splitLastColon cs = none ↔ ':' ∉ cs := by
  induction cs with
  | nil => simp [splitLastColon]
  | cons c cs ih =>
    simp only [splitLastColon, List.mem_cons]
    cases h : splitLastColon cs with
    | some p =>
        have hmem : ':' ∈ cs := by
          by_contra hn
          rw [ih.mpr hn] at h
          exact Option.noConfusion h
        simp [hmem]
    | none =>
        have hnm : ':' ∉ cs := ih.mp h
        by_cases hc : c = ':'
        · simp [hc, hnm]
        · simp only [hc, if_false, hnm, or_false, true_iff, eq_self_iff_true]
          simp [hnm]
          exact fun hh => hc hh.symm

/-- A successful splitLastColon is a decomposition at the last colon. -/
theorem splitLastColon_some {cs h t : List Char}
    (hh : splitLastColon cs = some (h, t)) : cs = h ++ ':' :: t ∧ ':' ∉ t := by
  induction cs generalizing h t with
  | nil => exact Option.noConfusion hh
  | cons c cs ih =>
    simp only [splitLastColon] at hh
    cases hsp : splitLastColon cs with
    | some p =>
        rw [hsp] at hh
        rcases p with ⟨h', t'⟩
        obtain ⟨heq, hnc⟩ := ih hsp
        have hhh : c :: h' = h ∧ t' = t := by
          simpa using hh
        obtain ⟨rfl, rfl⟩ := hhh
        exact ⟨by rw [List.cons_append, ← heq], hnc⟩
    | none =>
        rw [hsp] at hh
        by_cases hc : c = ':'
        · subst hc
          have hhh : ([] : List Char) = h ∧ cs = t := by
            simpa using hh
          obtain ⟨rfl, rfl⟩ := hhh
          exact ⟨rfl, splitLastColon_eq_none.mp hsp⟩
        · simp [hc] at hh

/-- A decomposition at a colon with no colon after it is found by
splitLastColon: the split is at the last colon. -/
theorem splitLastColon_complete (h t : List Char) (hnc : ':' ∉ t) :
    splitLastColon (h ++ ':' :: t) = some (h, t) := by
  induction h with
  | nil =>
      simp only [List.nil_append, splitLastColon]
      rw [splitLastColon_eq_none.mpr hnc]
      simp
  | cons c h ih =>
      simp only [List.cons_append, splitLastColon, List.append_eq, ih]

/-- The byte loop of isServiceName accepts exactly the character class
of the claim. -/
theorem isServiceName_iff (p : List Char) :
    isServiceName p = true ↔ ∀ c ∈ p, specPortChar c := by
  simp only [isServiceName, specPortChar, List.all_eq_true]
  constructor <;> intro hall c hc <;> have hx := hall c hc <;>
    simp only [Bool.or_eq_true, Bool.and_eq_true, decide_eq_true_iff, beq_iff_eq] at hx ⊢ <;>
    tauto

/-- Network only ever answers "tcp" or "unix". -/
theorem Network_tcp_or_unix (s : String) : Network s = "tcp" ∨ Network s = "unix" := by
  unfold Network
  cases splitLastColon s.toList with
  | none => exact Or.inr rfl
  | some p =>
      rcases p with ⟨h0, p0⟩
      dsimp only
      split
      · exact Or.inr rfl
      · split
        · exact Or.inr rfl
        · exact Or.inl rfl

/-- Claim C6: Network answers "tcp" exactly when the string splits at
its last colon into a host with no '/' and a non-empty port made only of
ASCII letters, digits, and dashes; in every other case it answers
"unix". -/
theorem C6_network_classification (s : String) :
    (Network s = "tcp" ↔ NetworkTcpSpec s) ∧ (¬ NetworkTcpSpec s → Network s = "unix") := by
  have hmain : Network s = "tcp" ↔ NetworkTcpSpec s := by
    unfold Network
    cases hsp : splitLastColon s.toList with
    | none =>
        constructor
        · intro hh
          exact absurd hh (by decide)
        · rintro ⟨host, port, heq, hnc, -, -, -⟩
          exfalso
          have hcom := splitLastColon_complete host port hnc
          rw [← heq, hsp] at hcom
          exact Option.noConfusion hcom
    | some p =>
        rcases p with ⟨h0, p0⟩
        obtain ⟨heq0, hnc0⟩ := splitLastColon_some hsp
        dsimp only
        constructor
        · intro hh
          by_cases hpe : p0.isEmpty = true
          · rw [if_pos (by simp [hpe])] at hh
            exact absurd hh (by decide)
          · by_cases hsn : isServiceName p0 = true
            · by_cases hc : h0.contains '/' = true
              · rw [if_neg (by simp [hpe, hsn]), if_pos hc] at hh
                exact absurd hh (by decide)
              · exact ⟨h0, p0, heq0, hnc0,
                  fun he => hpe (by simp [he, List.isEmpty_iff]),
                  (isServiceName_iff p0).mp hsn,
                  fun hmem => hc (List.elem_eq_true_of_mem hmem)⟩
            · rw [if_pos (by simp [hsn])] at hh
              exact absurd hh (by decide)
        · rintro ⟨host, port, heq, hnc, hpne, hchars, hsl⟩
          have hcom := splitLastColon_complete host port hnc
          rw [← heq, hsp] at hcom
          have hpair : h0 = host ∧ p0 = port := by
            simpa using hcom
          obtain ⟨rfl, rfl⟩ := hpair
          have hc1 : (p0.isEmpty || !isServiceName p0) = false := by
            simp [List.isEmpty_iff, hpne, (isServiceName_iff p0).mpr hchars]
          have hc2 : h0.contains '/' = false := by
            cases hq : h0.contains '/' with
            | false => rfl
            | true => exact absurd (List.mem_of_elem_eq_true hq) hsl
          simp [hc1, hc2, hsl]
  refine ⟨hmain, fun hns => ?_⟩
  rcases Network_tcp_or_unix s with h | h
  · exact absurd (hmain.mp h) hns
  · exact h

/-- Witness for C6: a concrete tcp address and a concrete unix path. -/
theorem C6_witness :
    Network "localhost:8080" = "tcp" ∧ Network "/var/run/sock" = "unix" :=
  ⟨(C6_network_classification "localhost:8080").1.mpr
    ⟨"localhost".toList, "8080".toList, by decide, by decide, by decide, by decide, by decide⟩,
   (C6_network_classification "/var/run/sock").2 (by
    rintro ⟨host, port, heq, hnc, -, -, -⟩
    have hmem : ':' ∈ "/var/run/sock".toList := by
      rw [heq]
      exact List.mem_append_right _ (List.mem_cons_self _ _)
    exact absurd hmem (by decide))⟩

end Theorems

end Jrpc2
